import Mathlib

/-!
Verification of the friendster ESP32 firmware (MicroPython sources).

The development shallowly embeds the modules `led_ring.py`, `button_handler.py`,
`ota_handler.py`, `web_server.py` and `mqtt_handler.py`.  Python strings are
modelled by `String`; the string primitives the firmware uses (`split`,
`strip`, `lower`, `replace`, `in`, `int(...)`) are re-implemented below as
executable functions over character lists so that every definition evaluates
inside the kernel.  Hardware effects (neopixel writes, sockets, flash files,
`machine.reset`) are modelled by explicit state records; wall-clock readings
(`time.ticks_ms`) are passed in as integer parameters.
-/

/- ===================================================================
   Python string primitives
   =================================================================== -/

/-- ASCII lower-casing of a single character (models `str.lower` on the
ASCII strings used by the firmware). -/
def lowerChar (c : Char) : Char :=
  if 'A' ≤ c ∧ c ≤ 'Z' then Char.ofNat (c.toNat + 32) else c

/-- Models Python `s.lower()` for ASCII strings. -/
def pyLower (s : String) : String :=
  (s.toList.map lowerChar).asString

/-- Tests whether the first list is a prefix of the second. -/
def isPrefixL : List Char → List Char → Bool
  | [], _ => true
  | _ :: _, [] => false
  | a :: xs, b :: ys => a = b && isPrefixL xs ys

/-- Occurrence of `needle` as a contiguous sublist of the second argument. -/
def containsSubL (needle : List Char) : List Char → Bool
  | [] => isPrefixL needle []
  | l@(_ :: rest) => isPrefixL needle l || containsSubL needle rest

/-- Models Python `needle in hay` for strings. -/
def pyContains (hay needle : String) : Bool :=
  containsSubL needle.toList hay.toList

/-- Fuel-indexed worker for `pySplit`; mirrors `str.split(sep)`. -/
def splitOnLAux (sep : List Char) : Nat → List Char → List Char → List (List Char)
  | _, [], acc => [acc.reverse]
  | 0, _ :: _, acc => [acc.reverse]
  | fuel + 1, l@(c :: cs), acc =>
    if isPrefixL sep l then acc.reverse :: splitOnLAux sep fuel (l.drop sep.length) []
    else splitOnLAux sep fuel cs (c :: acc)

/-- Models Python `s.split(sep)` for a non-empty separator. -/
def pySplit (s sep : String) : List String :=
  if sep.toList = [] then [s]
  else (splitOnLAux sep.toList (s.toList.length + 1) s.toList []).map List.asString

/-- Fuel-indexed worker locating the first occurrence of `sep`. -/
def findSplitAux (sep : List Char) : Nat → List Char → List Char → Option (List Char × List Char)
  | 0, _, _ => none
  | fuel + 1, l, acc =>
    if isPrefixL sep l ∧ sep ≠ [] then some (acc.reverse, l.drop sep.length)
    else
      match l with
      | [] => none
      | c :: cs => findSplitAux sep fuel cs (c :: acc)

/-- Models Python `s.split(sep, 1)`: split only at the first occurrence. -/
def splitFirstOn (s sep : String) : List String :=
  match findSplitAux sep.toList (s.toList.length + 1) s.toList [] with
  | some (a, b) => [a.asString, b.asString]
  | none => [s]

/-- Fuel-indexed worker for `pyReplace`. -/
def replaceSubAux (pat rep : List Char) : Nat → List Char → List Char
  | 0, l => l
  | _ + 1, [] => []
  | fuel + 1, l@(c :: cs) =>
    if isPrefixL pat l ∧ pat ≠ [] then rep ++ replaceSubAux pat rep fuel (l.drop pat.length)
    else c :: replaceSubAux pat rep fuel cs

/-- Models Python `s.replace(pat, rep)` for a non-empty pattern. -/
def pyReplace (s pat rep : String) : String :=
  (replaceSubAux pat.toList rep.toList (s.toList.length + 1) s.toList).asString

/-- Models Python `s.strip()` (whitespace trimming on both ends). -/
def pyStrip (s : String) : String :=
  (((s.toList.dropWhile Char.isWhitespace).reverse.dropWhile Char.isWhitespace).reverse).asString

/-- Models Python `s.rstrip(c)` for a single strip character. -/
def pyRstripChar (s : String) (c : Char) : String :=
  ((s.toList.reverse.dropWhile (· = c)).reverse).asString

/-- Models Python `s.endswith(suffixStr)` for strings. -/
def pyEndsWith (s suffixStr : String) : Bool :=
  isPrefixL suffixStr.toList.reverse s.toList.reverse

/-- Digit-accumulating worker for `pyIntOfString`. -/
def digitsValAux : List Char → Nat → Option Nat
  | [], acc => some acc
  | c :: cs, acc =>
    if c.isDigit then digitsValAux cs (acc * 10 + (c.toNat - 48)) else none

/-- Models CPython `int(s)` on ASCII decimal literals: surrounding
whitespace and a single leading sign are accepted, anything else is a
`ValueError`, modelled as `none`.  (Underscore separators and non-ASCII
digits, which CPython also accepts, do not occur in this firmware's
inputs and are not modelled.) -/
def pyIntOfString (s : String) : Option Int :=
  match (pyStrip s).toList with
  | [] => none
  | '-' :: rest =>
    match rest with
    | [] => none
    | _ :: _ => (digitsValAux rest 0).map (fun n => -(n : Int))
  | '+' :: rest =>
    match rest with
    | [] => none
    | _ :: _ => (digitsValAux rest 0).map (fun n => (n : Int))
  | l => (digitsValAux l 0).map (fun n => (n : Int))

/-- Python dict lookup on an association list (`d.get(k)` / `k in d`). -/
def fsGet : List (String × String) → String → Option String
  | [], _ => none
  | (k, v) :: rest, n => if k = n then some v else fsGet rest n

/-- Python dict assignment `d[k] = v` on an association list. -/
def dictSet : List (String × String) → String → String → List (String × String)
  | [], k, v => [(k, v)]
  | (k', v') :: rest, k, v =>
    if k' = k then (k, v) :: rest else (k', v') :: dictSet rest k v

/- ===================================================================
   constants.py
   =================================================================== -/

def DEBOUNCE_TIME : Int := 50
def LONG_PRESS_TIME : Int := 2500
def VERY_LONG_PRESS_TIME : Int := 7000

/-- RGB colour triple. -/
abbrev RGB := Int × Int × Int

/-- The `COLORS` name table of `constants.py`. -/
def COLORS : List (String × RGB) :=
  [("red", (255, 0, 0)), ("green", (0, 255, 0)), ("blue", (0, 0, 255)),
   ("yellow", (255, 255, 0)), ("cyan", (0, 255, 255)), ("magenta", (255, 0, 255)),
   ("white", (255, 255, 255)), ("orange", (255, 165, 0)), ("purple", (128, 0, 128)),
   ("pink", (255, 192, 203)), ("lime", (0, 255, 0)), ("teal", (0, 128, 128)),
   ("lavender", (230, 230, 250)), ("brown", (165, 42, 42)), ("beige", (245, 245, 220)),
   ("maroon", (128, 0, 0)), ("mint", (189, 252, 201)), ("olive", (128, 128, 0)),
   ("coral", (255, 127, 80)), ("navy", (0, 0, 128)), ("grey", (128, 128, 128)),
   ("gray", (128, 128, 128)), ("black", (0, 0, 0)), ("off", (0, 0, 0))]

/-- Lookup in the `COLORS` table. -/
def colorsGet : List (String × RGB) → String → Option RGB
  | [], _ => none
  | (k, v) :: rest, n => if k = n then some v else colorsGet rest n

/- ===================================================================
   led_ring.py — data model
   =================================================================== -/

/-- A dynamically-typed Python value as it appears in MQTT payloads and
method arguments: a string, an integer, a tuple/list of integers, or
`None`/anything else (collapsed into `noneV`). -/
inductive PyVal where
  | str (s : String)
  | int (n : Int)
  | tup (xs : List Int)
  | noneV
deriving DecidableEq, Repr

/-- Mutable state of `LEDRing.__init__` (the neopixel buffer itself is a
hardware effect and is not part of the model).  Field defaults mirror the
constructor. -/
structure LEDRing where
  num_leds : Int := 24
  position : Int := 0
  last_update : Int := 0
  update_interval : Int := 50
  brightness : Int := 50
  active : Bool := true
  mode : String := "chase"
  hue : Int := 0
  direction : Int := 1
  chase_color : RGB := (255, 0, 0)
  comet_color : RGB := (0, 150, 255)
  spinner_colors : List RGB := [(255, 0, 0), (0, 255, 0), (0, 0, 255)]
  solid_color : RGB := (255, 255, 255)
  flash_color : RGB := (255, 0, 0)
  flash_state : Bool := false
  pulse_color : RGB := (0, 150, 255)
  pulse_min_brightness : Int := 10
  pulse_max_brightness : Int := 255
  pulse_current : Int := 10
  pulse_direction : Int := 1
  pulse_step : Int := 5
deriving DecidableEq, Repr

/-- The ring state right after `LEDRing(pin=8, num_leds=24)`. -/
def ringInit : LEDRing := {}

/-- Embeds `LEDRing.set_update_interval`. -/
def LEDRing.set_update_interval (r : LEDRing) (ms : Int) : LEDRing :=
  { r with update_interval := ms }

/-- Embeds `LEDRing.set_brightness`. -/
def LEDRing.set_brightness (r : LEDRing) (b : Int) : LEDRing :=
  { r with brightness := max 0 (min 255 b) }

/-- Embeds `LEDRing.set_direction` (accepts a string or an integer; anything else
only prints a warning). -/
def LEDRing.set_direction (r : LEDRing) (d : PyVal) : LEDRing :=
  match d with
  | .str s =>
    let dl := pyLower s
    if dl = "cw" ∨ dl = "clockwise" then { r with direction := 1 }
    else if dl = "ccw" ∨ dl = "counter-clockwise" ∨ dl = "counterclockwise" then
      { r with direction := -1 }
    else if dl = "reverse" then { r with direction := r.direction * (-1) }
    else r
  | .int n => if n = 1 ∨ n = -1 then { r with direction := n } else r
  | _ => r

/-- Embeds `LEDRing.set_mode`. -/
def LEDRing.set_mode (r : LEDRing) (m : String) : LEDRing :=
  { r with mode := m, position := 0, flash_state := false }

/-- Embeds `LEDRing._parse_color`: colour name lookup, pass-through of length-3
tuples/lists, red fallback otherwise. -/
def LEDRing._parse_color (c : PyVal) : RGB :=
  match c with
  | .str s =>
    match colorsGet COLORS (pyLower s) with
    | some rgb => rgb
    | none => (255, 0, 0)
  | .tup [a, b, c] => (a, b, c)
  | _ => (255, 0, 0)

/-- Embeds `LEDRing.set_chase_color` called with a single argument (the only form
the firmware uses from MQTT). -/
def LEDRing.set_chase_color (r : LEDRing) (c : PyVal) : LEDRing :=
  { r with chase_color := LEDRing._parse_color c }

/-- Embeds `LEDRing.set_pulse_range`: clamp both bounds to 0..255, then swap when
the clamped minimum exceeds the clamped maximum. -/
def LEDRing.set_pulse_range (r : LEDRing) (min_brightness max_brightness : Int) : LEDRing :=
  let r1 := { r with
    pulse_min_brightness := max 0 (min 255 min_brightness),
    pulse_max_brightness := max 0 (min 255 max_brightness) }
  if r1.pulse_min_brightness > r1.pulse_max_brightness then
    { r1 with
      pulse_min_brightness := r1.pulse_max_brightness,
      pulse_max_brightness := r1.pulse_min_brightness }
  else r1

/-- Embeds `LEDRing.set_pulse_step`. -/
def LEDRing.set_pulse_step (r : LEDRing) (step : Int) : LEDRing :=
  { r with pulse_step := max 1 (min 50 step) }

/-- State update performed by one call to `LEDRing.pulse` (the LED writes
themselves are hardware effects): advance the level by `step * direction`,
then clamp at the bounds and reverse the direction there. -/
def LEDRing.pulse (r : LEDRing) : LEDRing :=
  let cur := r.pulse_current + r.pulse_step * r.pulse_direction
  if cur ≥ r.pulse_max_brightness then
    { r with pulse_current := r.pulse_max_brightness, pulse_direction := -1 }
  else if cur ≤ r.pulse_min_brightness then
    { r with pulse_current := r.pulse_min_brightness, pulse_direction := 1 }
  else { r with pulse_current := cur }

/-- The dict returned by `LEDRing.save_state`, modelled as a record of
optional entries (a key absent from the dict is `none`). -/
structure RingSavedState where
  mode : Option String := none
  direction : Option Int := none
  brightness : Option Int := none
  update_interval : Option Int := none
  chase_color : Option RGB := none
  comet_color : Option RGB := none
  spinner_colors : Option (List RGB) := none
  solid_color : Option RGB := none
  flash_color : Option RGB := none
  pulse_color : Option RGB := none
  pulse_min_brightness : Option Int := none
  pulse_max_brightness : Option Int := none
  pulse_step : Option Int := none
deriving DecidableEq, Repr

/-- Embeds `LEDRing.save_state`: every covered field is stored in the dict. -/
def LEDRing.save_state (r : LEDRing) : RingSavedState :=
  { mode := some r.mode,
    direction := some r.direction,
    brightness := some r.brightness,
    update_interval := some r.update_interval,
    chase_color := some r.chase_color,
    comet_color := some r.comet_color,
    spinner_colors := some r.spinner_colors,
    solid_color := some r.solid_color,
    flash_color := some r.flash_color,
    pulse_color := some r.pulse_color,
    pulse_min_brightness := some r.pulse_min_brightness,
    pulse_max_brightness := some r.pulse_max_brightness,
    pulse_step := some r.pulse_step }

/-- Embeds `if not state:` — a dict with no entries is falsy. -/
def RingSavedState.isEmptyDict (st : RingSavedState) : Bool :=
  st.mode.isNone && st.direction.isNone && st.brightness.isNone &&
  st.update_interval.isNone && st.chase_color.isNone && st.comet_color.isNone &&
  st.spinner_colors.isNone && st.solid_color.isNone && st.flash_color.isNone &&
  st.pulse_color.isNone && st.pulse_min_brightness.isNone &&
  st.pulse_max_brightness.isNone && st.pulse_step.isNone

/-- Embeds `LEDRing.restore_state`: each saved entry is written back
(`state.get(k, current)`), and the position is reset to 0 for a clean
animation restart.  Note that `hue` is not touched. -/
def LEDRing.restore_state (r : LEDRing) (st : RingSavedState) : LEDRing :=
  if st.isEmptyDict then r
  else
    { r with
      mode := st.mode.getD r.mode,
      direction := st.direction.getD r.direction,
      brightness := st.brightness.getD r.brightness,
      update_interval := st.update_interval.getD r.update_interval,
      chase_color := st.chase_color.getD r.chase_color,
      comet_color := st.comet_color.getD r.comet_color,
      spinner_colors := st.spinner_colors.getD r.spinner_colors,
      solid_color := st.solid_color.getD r.solid_color,
      flash_color := st.flash_color.getD r.flash_color,
      pulse_color := st.pulse_color.getD r.pulse_color,
      pulse_min_brightness := st.pulse_min_brightness.getD r.pulse_min_brightness,
      pulse_max_brightness := st.pulse_max_brightness.getD r.pulse_max_brightness,
      pulse_step := st.pulse_step.getD r.pulse_step,
      position := 0 }

/- ===================================================================
   button_handler.py
   =================================================================== -/

/-- The three module-level state variables of `button_handler.py`
(`__button_last_state__`, `__button_press_start__`,
`__button_state_change_time__`). -/
structure ButtonState where
  last_state : Nat
  press_start : Int
  state_change_time : Int
deriving DecidableEq, Repr

/-- Embeds `__button_normal_state__`: pull-up logic, not-pressed is 0 here. -/
def button_normal_state : Nat := 0

/-- Result classification of `check_button`. -/
inductive PressKind where
  | short
  | long
  | very_long
deriving DecidableEq, Repr

/-- Embeds `check_button`: debounced edge detection returning the press kind on a
pressed-to-released transition.  `current_state` is `button.value()` and
`current_time` is `time.ticks_ms()`; `ticks_diff` is modelled as integer
subtraction. -/
def check_button (s : ButtonState) (current_state : Nat) (current_time : Int) :
    ButtonState × Option PressKind :=
  if current_time - s.state_change_time > DEBOUNCE_TIME then
    if s.last_state ≠ current_state ∧ current_state = Nat.xor button_normal_state 1 then
      ({ last_state := current_state, press_start := current_time,
         state_change_time := current_time }, none)
    else if s.last_state ≠ current_state ∧ current_state = button_normal_state then
      let press_duration := current_time - s.press_start
      let kind :=
        if press_duration ≥ VERY_LONG_PRESS_TIME then PressKind.very_long
        else if press_duration ≥ LONG_PRESS_TIME then PressKind.long
        else PressKind.short
      ({ s with last_state := current_state, state_change_time := current_time }, some kind)
    else if s.last_state ≠ current_state then
      ({ s with last_state := current_state, state_change_time := current_time }, none)
    else (s, none)
  else (s, none)

/- ===================================================================
   ota_handler.py
   =================================================================== -/

def OTA_CHECK_MIN_HOURS : Nat := 22
def OTA_CHECK_MAX_HOURS : Nat := 26

/-- Embeds `_get_random_interval`: `bits` is the value returned by
`getrandbits(16)`.  The float arithmetic of the source is carried out
exactly over the rationals and `int(...)` is modelled by `Int.floor`
(the product is an exact integer, so no rounding discrepancy arises). -/
def _get_random_interval (bits : Nat) : Int :=
  let range_hours := OTA_CHECK_MAX_HOURS - OTA_CHECK_MIN_HOURS
  let random_offset : ℚ := ((bits % (range_hours * 60) : ℕ) : ℚ) / 60
  let hours : ℚ := (OTA_CHECK_MIN_HOURS : ℚ) + random_offset
  Int.floor (hours * 60 * 60 * 1000)

/-- The module-level timer state `_last_check_time` / `_next_check_interval`. -/
structure OtaTimerState where
  last_check_time : Int
  next_check_interval : Int
deriving DecidableEq, Repr

/-- Embeds `should_check_now`: re-randomizes a zero interval, then compares the
elapsed time against it.  `bits` feeds the possible re-randomization and
`now` is `time.ticks_ms()`. -/
def should_check_now (s : OtaTimerState) (bits : Nat) (now : Int) : OtaTimerState × Bool :=
  let s :=
    if s.next_check_interval = 0 then
      { s with next_check_interval := _get_random_interval bits }
    else s
  (s, now - s.last_check_time ≥ s.next_check_interval)

/-- Embeds `periodic_check`.  Environment parameters: `enabled`/`auto_update` from
the OTA config; `check_avail` is the outcome of `check_for_updates(force=True)`
(`none` when it returned `None` — disabled, no URL or manifest fetch failure —
otherwise `some available`); `apply_result` is the value `apply_update` would
return; `bits1`/`bits2` feed the two possible `_get_random_interval` calls and
`t1`/`t2` the `time.ticks_ms()` readings.  (`check_for_updates` also writes
`_last_check_time` at its start; that write is immediately overwritten by the
assignment to `t2` below and is collapsed into it.) -/
def periodic_check (s : OtaTimerState) (enabled auto_update : Bool)
    (check_avail : Option Bool) (apply_result : Bool)
    (bits1 bits2 : Nat) (t1 t2 : Int) : OtaTimerState × Bool :=
  let fired := should_check_now s bits1 t1
  if ¬ fired.2 then (fired.1, false)
  else if ¬ enabled then
    -- reset timer even if disabled, to prevent an immediate check if re-enabled
    ({ last_check_time := t2, next_check_interval := _get_random_interval bits2 }, false)
  else
    let s2 : OtaTimerState :=
      { last_check_time := t2, next_check_interval := _get_random_interval bits2 }
    match check_avail with
    | some true => if auto_update then (s2, apply_result) else (s2, false)
    | _ => (s2, false)

/-- Python `>` on two lists of integers (lexicographic). -/
def listGtPy : List Int → List Int → Bool
  | [], _ => false
  | _ :: _, [] => true
  | a :: as', b :: bs => if b < a then true else if a < b then false else listGtPy as' bs

/-- Embeds `_compare_versions`: split on `'.'`, coerce each component with
`int(...)`, pad the shorter list with zeros, and compare.  Any `ValueError`
(a non-numeric component) lands in the `except` branch, returning `False`. -/
def _compare_versions (localv remotev : String) : Bool :=
  match (pySplit localv ".").mapM pyIntOfString, (pySplit remotev ".").mapM pyIntOfString with
  | some local_parts, some remote_parts =>
    let local_parts := local_parts ++ List.replicate (remote_parts.length - local_parts.length) 0
    let remote_parts := remote_parts ++ List.replicate (local_parts.length - remote_parts.length) 0
    listGtPy remote_parts local_parts
  | _, _ => false

/-- The version record written to `ota_version.json` after a successful
update (`updated_at` is the `time.time()` reading). -/
structure VersionRecord where
  version : String
  files : List String
  updated_at : Int
deriving DecidableEq, Repr

/-- The OTA configuration dict. -/
structure OtaConfig where
  enabled : Bool
  server_url : String
  check_on_boot : Bool := true
  auto_update : Bool := true
deriving DecidableEq, Repr

/-- The result dict of `check_for_updates` (the `files` entries are the
file names: a plain string entry is the name itself, a dict entry is its
`'name'` value, defaulting to `''`). -/
structure UpdateInfo where
  available : Bool
  current_version : String := "0.0.0"
  new_version : String
  files : List String
deriving DecidableEq, Repr

/-- Device flash state: the file system as an association list from file
name to content, the persisted version record, and whether
`machine.reset()` was reached. -/
structure DeviceState where
  files : List (String × String)
  version_record : Option VersionRecord
  rebooted : Bool
deriving DecidableEq, Repr

/-- File write (create or overwrite). -/
def fsWrite : List (String × String) → String → String → List (String × String)
  | [], k, v => [(k, v)]
  | (k', v') :: rest, k, v =>
    if k' = k then (k, v) :: rest else (k', v') :: fsWrite rest k v

/-- Models `os.remove` (no error when absent — the source wraps it in `try`). -/
def fsRemove : List (String × String) → String → List (String × String)
  | [], _ => []
  | (k, v) :: rest, n =>
    if k = n then fsRemove rest n else (k, v) :: fsRemove rest n

/-- Models `os.rename(oldName, newName)`. -/
def fsRename (files : List (String × String)) (oldName newName : String) :
    List (String × String) :=
  match fsGet files oldName with
  | some c => fsWrite (fsRemove files oldName) newName c
  | none => files

/-- Embeds `_download_file`: `resp url` is the body of a successful
`requests.get(url)` (`none` for an HTTP error or exception).  On success the
body is written to `filename + '.tmp'`, the original is removed and the temp
file renamed over it; on failure the temp file is cleaned up. -/
def _download_file (resp : String → Option String) (url filename : String)
    (files : List (String × String)) : Bool × List (String × String) :=
  match resp url with
  | some text =>
    let temp_filename := filename ++ ".tmp"
    let files := fsWrite files temp_filename text
    let files := fsRemove files filename
    let files := fsRename files temp_filename filename
    (true, files)
  | none =>
    (false, fsRemove files (filename ++ ".tmp"))

/-- Embeds `_save_local_version` (the write is assumed to succeed; its boolean
result is ignored by `apply_update` anyway). -/
def _save_local_version (d : DeviceState) (vi : VersionRecord) : DeviceState :=
  { d with version_record := some vi }

/-- The download loop of `apply_update`: returns the `success` flag, the
`downloaded_files` list and the updated device state; it breaks at the
first failed download and skips entries with an empty name. -/
def downloadAll (resp : String → Option String) (server_url : String) :
    List String → DeviceState → Bool × List String × DeviceState
  | [], d => (true, [], d)
  | f :: rest, d =>
    if f = "" then downloadAll resp server_url rest d
    else
      let file_url := server_url ++ "/" ++ f
      let dl := _download_file resp file_url f d.files
      if dl.1 then
        let r := downloadAll resp server_url rest { d with files := dl.2 }
        (r.1, f :: r.2.1, r.2.2)
      else (false, [], { d with files := dl.2 })

/-- Embeds `apply_update`.  `update_info` is the caller-supplied result of
`check_for_updates` (`none` also covering the case where the internal
re-check returned `None`); `resp` is the download oracle mapping a URL to
the body of a successful response; `now` is the `time.time()` reading. -/
def apply_update (config : OtaConfig) (update_info : Option UpdateInfo)
    (resp : String → Option String) (now : Int) (d : DeviceState) :
    Bool × DeviceState :=
  if ¬ config.enabled then (false, d)
  else
    match update_info with
    | none => (false, d)
    | some ui =>
      if ¬ ui.available then (false, d)
      else
        let server_url := pyRstripChar config.server_url '/'
        if ui.files = [] then (false, d)
        else
          let r := downloadAll resp server_url ui.files d
          let success := r.1
          let downloaded_files := r.2.1
          let d' := r.2.2
          if success ∧ downloaded_files ≠ [] then
            let d'' := _save_local_version d'
              { version := ui.new_version, files := downloaded_files, updated_at := now }
            (success, { d'' with rebooted := true })
          else (success, d')

/- ===================================================================
   web_server.py
   =================================================================== -/

/-- Parse the AP IP string the way `handle_dns_request` does:
`ip.split('.')`, `int(...)` on the first four parts, then `bytes([...])`
(which raises unless every value is in 0..255, the raise being caught by
the surrounding `except`). -/
def ipv4ToBytes (ip : String) : Option (List Nat) :=
  match pySplit ip "." with
  | a :: b :: c :: d :: _ =>
    match pyIntOfString a, pyIntOfString b, pyIntOfString c, pyIntOfString d with
    | some x, some y, some z, some w =>
      if 0 ≤ x ∧ x < 256 ∧ 0 ≤ y ∧ y < 256 ∧ 0 ≤ z ∧ z < 256 ∧ 0 ≤ w ∧ w < 256 then
        some [x.toNat, y.toNat, z.toNat, w.toNat]
      else none
    | _, _, _, _ => none
  | _ => none

/-- Embeds `handle_dns_request`: builds the DNS response for an inbound packet
`data` (a byte list) and the AP IP string; `none` models the exception
path (malformed AP IP), where no response is sent. -/
def handle_dns_request (data : List Nat) (ap_ip : String) : Option (List Nat) :=
  match ipv4ToBytes ap_ip with
  | some answer_data =>
    some (data.take 2                 -- transaction id
      ++ [0x81, 0x80]                 -- flags: standard response, no error
      ++ (data.drop 4).take 2         -- question count copied from the query
      ++ [0x00, 0x01]                 -- answer RRs = 1
      ++ [0x00, 0x00]                 -- authority RRs
      ++ [0x00, 0x00]                 -- additional RRs
      ++ data.drop 12                 -- question section copied verbatim
      ++ [0xc0, 0x0c]                 -- pointer to the name in the question
      ++ [0x00, 0x01]                 -- type A
      ++ [0x00, 0x01]                 -- class IN
      ++ [0x00, 0x00, 0x00, 0x3c]    -- TTL 60 s
      ++ [0x00, 0x04]                 -- RDATA length
      ++ answer_data)                 -- the AP IP
  | none => none

/-- Embeds `parse_post_data`: split the body on `'&'`, split each pair at the
first `'='`, URL-decode the value with the five fixed replacements, and
assign into the params dict. -/
def parse_post_data (data : String) : List (String × String) :=
  (pySplit data "&").foldl
    (fun params pair =>
      if pyContains pair "=" then
        match splitFirstOn pair "=" with
        | [k, v] =>
          let v := pyReplace v "+" " "
          let v := pyReplace v "%40" "@"
          let v := pyReplace v "%2F" "/"
          let v := pyReplace v "%3A" ":"
          let v := pyReplace v "%23" "#"
          dictSet params k v
        | _ => params
      else params)
    []

/-- The configuration files `handle_web_request` can persist: the WiFi
credentials (`save_config`), the MQTT settings (`save_mqtt_config`) and the
OTA settings (`save_ota_config`).  `none` means the file was not written. -/
structure WebEffects where
  wifi_saved : Option (String × String) := none
  mqtt_saved : Option (String × Int × String × String × String) := none
  ota_saved : Option OtaConfig := none
deriving DecidableEq, Repr

/-- Embeds `handle_web_request`, modelled on the decoded request text: which
configuration files get persisted and the function's return value (`True`
signals "configuration received" to the captive-portal loop).  Socket
handling and the response bodies are I/O and are not modelled.  The
`int(params.get('port','1883'))` call can raise; the exception is caught by
the surrounding handler after the WiFi config was already saved, and the
function then returns `False`. -/
def handle_web_request (request_str : String) : WebEffects × Bool :=
  let is_captive_portal_check :=
    pyContains request_str "generate_204" || pyContains request_str "hotspot-detect.html" ||
    pyContains request_str "connecttest.txt" || pyContains request_str "success.txt" ||
    pyContains request_str "ncsi.txt" || pyContains request_str "connecttest"
  if pyContains request_str "POST /configure" then
    match pySplit request_str "\r\n\r\n" with
    | _ :: post_data :: _ =>
      let params := parse_post_data post_data
      match fsGet params "ssid", fsGet params "password" with
      | some ssid, some password =>
        let broker := (fsGet params "broker").getD "broker.hivemq.com"
        match pyIntOfString ((fsGet params "port").getD "1883") with
        | some port =>
          let topic := (fsGet params "topic").getD "esp32/test"
          let mqtt_user := (fsGet params "mqtt_user").getD ""
          let mqtt_pass := (fsGet params "mqtt_pass").getD ""
          ({ wifi_saved := some (ssid, password),
             mqtt_saved := some (broker, port, topic, mqtt_user, mqtt_pass),
             ota_saved := some
               { enabled := (fsGet params "ota_enabled").isSome,
                 server_url := (fsGet params "ota_url").getD "",
                 check_on_boot := (fsGet params "ota_boot_check").isSome,
                 auto_update := (fsGet params "ota_auto_update").isSome } }, true)
        | none => ({ wifi_saved := some (ssid, password) }, false)
      | _, _ => ({}, false)
    | _ => ({}, false)
  else if is_captive_portal_check then ({}, false)
  else ({}, false)

/- ===================================================================
   mqtt_handler.py
   =================================================================== -/

/-- Python dict lookup on a decoded JSON object. -/
def dictGetV : List (String × PyVal) → String → Option PyVal
  | [], _ => none
  | (k, v) :: rest, n => if k = n then some v else dictGetV rest n

/-- An MQTT payload after the `payload.startswith('{')` / `json.loads`
dispatch of `_parse_command_payload`: either it decoded as a JSON object,
or it is treated as a plain colour string. -/
inductive MqttPayload where
  | plain (s : String)
  | jsonObj (fields : List (String × PyVal))
deriving DecidableEq, Repr

/-- The parsed command dict (`None` entries become `none`). -/
structure CommandParams where
  color : PyVal
  speed : Option PyVal
  brightness : Option PyVal
  direction : Option PyVal
deriving DecidableEq, Repr

/-- Embeds `_parse_command_payload`. -/
def _parse_command_payload (p : MqttPayload) : CommandParams :=
  match p with
  | .jsonObj fields =>
    { color := (dictGetV fields "color").getD (.str "white"),
      speed := dictGetV fields "speed",
      brightness := dictGetV fields "brightness",
      direction := dictGetV fields "direction" }
  | .plain s =>
    let t := pyStrip s
    if t = "" then
      { color := .str "white", speed := none, brightness := none, direction := none }
    else
      { color := .str t, speed := none, brightness := none, direction := none }

/-- Embeds `_apply_common_settings`: apply speed, brightness and direction when
present.  (A non-integer speed or brightness would be stored/crash in the
dynamically-typed source; those values are outside the typed model and
leave the ring unchanged here.) -/
def _apply_common_settings (params : CommandParams) (r : LEDRing) : LEDRing :=
  let r :=
    match params.speed with
    | some (.int n) => r.set_update_interval n
    | some _ => r
    | none => r
  let r :=
    match params.brightness with
    | some (.int n) => r.set_brightness n
    | some _ => r
    | none => r
  match params.direction with
  | some v => r.set_direction v
  | none => r

/-- Embeds `ring_chase`: parse the payload, apply the common settings, set the
chase colour and switch the mode. -/
def ring_chase (payload : MqttPayload) (r : LEDRing) : LEDRing :=
  let params := _parse_command_payload payload
  let r := _apply_common_settings params r
  let r := r.set_chase_color params.color
  r.set_mode "chase"

/- ===================================================================
   Theorems
   =================================================================== -/

/-- C1 (counterexample): the claim states that `restore_state(save_state())`
resets the hue to its neutral start value 0; on a ring whose hue has
advanced to 7 (e.g. by the rainbow animation), restore leaves it at 7. -/
theorem claim_C1_counterexample :
    ¬ ((LEDRing.restore_state { hue := 7 } (LEDRing.save_state { hue := 7 })).hue = 0) := by
  decide

/-- C1 (amended): for every reachable ring state,
`restore_state(save_state())` reproduces the state on all saved fields
(mode, direction, brightness, update interval, all per-mode colors, pulse
min/max/step), with the ephemeral position reset to its neutral start 0;
the hue is left unchanged, not reset. -/
theorem claim_C1_amended (r : LEDRing) :
    (r.restore_state r.save_state).mode = r.mode ∧
    (r.restore_state r.save_state).direction = r.direction ∧
    (r.restore_state r.save_state).brightness = r.brightness ∧
    (r.restore_state r.save_state).update_interval = r.update_interval ∧
    (r.restore_state r.save_state).chase_color = r.chase_color ∧
    (r.restore_state r.save_state).comet_color = r.comet_color ∧
    (r.restore_state r.save_state).spinner_colors = r.spinner_colors ∧
    (r.restore_state r.save_state).solid_color = r.solid_color ∧
    (r.restore_state r.save_state).flash_color = r.flash_color ∧
    (r.restore_state r.save_state).pulse_color = r.pulse_color ∧
    (r.restore_state r.save_state).pulse_min_brightness = r.pulse_min_brightness ∧
    (r.restore_state r.save_state).pulse_max_brightness = r.pulse_max_brightness ∧
    (r.restore_state r.save_state).pulse_step = r.pulse_step ∧
    (r.restore_state r.save_state).position = 0 ∧
    (r.restore_state r.save_state).hue = r.hue := by
  simp [LEDRing.restore_state, LEDRing.save_state, RingSavedState.isEmptyDict]

/-- C9: after `set_pulse_range(a, b)` the bounds are clamped to 0..255, the
invariant min ≤ max holds, and the two clamped values are silently swapped
when needed (min is the smaller, max the larger clamped argument). -/
theorem claim_C9 (r : LEDRing) (a b : Int) :
    0 ≤ (r.set_pulse_range a b).pulse_min_brightness ∧
    (r.set_pulse_range a b).pulse_min_brightness ≤
      (r.set_pulse_range a b).pulse_max_brightness ∧
    (r.set_pulse_range a b).pulse_max_brightness ≤ 255 ∧
    (r.set_pulse_range a b).pulse_min_brightness =
      min (max 0 (min 255 a)) (max 0 (min 255 b)) ∧
    (r.set_pulse_range a b).pulse_max_brightness =
      max (max 0 (min 255 a)) (max 0 (min 255 b)) := by
  unfold LEDRing.set_pulse_range
  dsimp only
  split_ifs with h <;> simp_all <;> omega

/-- C8: routing the payload `{"color": "blue", "speed": 40}` to the
`ring/chase` command sets the chase colour to blue `(0,0,255)`, the update
interval to 40 ms and the mode to `chase`, leaving brightness and direction
unchanged. -/
theorem claim_C8 (r : LEDRing) :
    (ring_chase (.jsonObj [("color", .str "blue"), ("speed", .int 40)]) r).chase_color
      = (0, 0, 255) ∧
    (ring_chase (.jsonObj [("color", .str "blue"), ("speed", .int 40)]) r).update_interval
      = 40 ∧
    (ring_chase (.jsonObj [("color", .str "blue"), ("speed", .int 40)]) r).mode
      = "chase" ∧
    (ring_chase (.jsonObj [("color", .str "blue"), ("speed", .int 40)]) r).brightness
      = r.brightness ∧
    (ring_chase (.jsonObj [("color", .str "blue"), ("speed", .int 40)]) r).direction
      = r.direction := by
  refine ⟨rfl, rfl, rfl, rfl, rfl⟩

/-- C2: on a clean (debounce-accepted) pressed-to-released edge,
`check_button` classifies the press duration `d = now - press_start` as
`very_long` iff `d ≥ 7000` ms, `long` iff `2500 ≤ d < 7000` ms and `short`
iff `d < 2500` ms. -/
theorem claim_C2 (s : ButtonState) (t : Int)
    (hdeb : t - s.state_change_time > DEBOUNCE_TIME)
    (hpressed : s.last_state = 1) :
    ((check_button s 0 t).2 = some PressKind.very_long ↔ 7000 ≤ t - s.press_start) ∧
    ((check_button s 0 t).2 = some PressKind.long ↔
      (2500 ≤ t - s.press_start ∧ t - s.press_start < 7000)) ∧
    ((check_button s 0 t).2 = some PressKind.short ↔ t - s.press_start < 2500) := by
  unfold check_button
  rw [if_pos hdeb]
  rw [if_neg (by simp [button_normal_state])]
  rw [if_pos (by simp [hpressed, button_normal_state])]
  dsimp only
  unfold VERY_LONG_PRESS_TIME LONG_PRESS_TIME
  split_ifs with h1 h2 <;>
    simp only [Option.some.injEq] <;>
    refine ⟨⟨?_, ?_⟩, ⟨?_, ?_⟩, ⟨?_, ?_⟩⟩ <;>
    intro h <;> first
      | trivial
      | (exact absurd h (by decide))
      | omega

/-- C2 witness: a release at t = 8000 after a press started at 0 (duration
8000 ms ≥ 7000 ms) is classified as a very long press. -/
theorem claim_C2_witness :
    (check_button ⟨1, 0, 0⟩ 0 8000).2 = some PressKind.very_long :=
  (claim_C2 ⟨1, 0, 0⟩ 8000 (by decide) rfl).1.mpr (by decide)

/-- Closed form of `_get_random_interval`: 22 h plus one random
minute step per unit of `bits % 240`, in milliseconds. -/
lemma getRandomInterval_eq (bits : Nat) :
    _get_random_interval bits = 79200000 + 60000 * ((bits % 240 : Nat) : Int) := by
  have h2 : _get_random_interval bits
      = Int.floor (((79200000 + 60000 * (bits % 240) : ℕ) : ℚ)) := by
    unfold _get_random_interval OTA_CHECK_MIN_HOURS OTA_CHECK_MAX_HOURS
    dsimp only
    congr 1
    push_cast
    ring
  rw [h2, Int.floor_natCast]
  omega

/-- The randomized interval always lies within 22 and 26 hours in ms. -/
lemma getRandomInterval_bounds (bits : Nat) :
    79200000 ≤ _get_random_interval bits ∧ _get_random_interval bits ≤ 93600000 := by
  rw [getRandomInterval_eq]
  have h : bits % 240 < 240 := Nat.mod_lt _ (by norm_num)
  omega

/-- C3: whenever `periodic_check()` fires (`should_check_now` is true),
then — whether OTA is disabled, the manifest fetch fails (`check_avail =
none`), the device is up to date (`some false`) or an update is found
(`some true`) — the next-check interval is re-randomized into
[22 h, 26 h] = [79200000 ms, 93600000 ms] and the last-check timestamp is
reset to the current `ticks_ms` reading `t2`. -/
theorem claim_C3 (s : OtaTimerState) (enabled auto_update : Bool)
    (check_avail : Option Bool) (apply_result : Bool) (bits1 bits2 : Nat) (t1 t2 : Int)
    (hfire : (should_check_now s bits1 t1).2 = true) :
    79200000 ≤
      (periodic_check s enabled auto_update check_avail apply_result
        bits1 bits2 t1 t2).1.next_check_interval ∧
    (periodic_check s enabled auto_update check_avail apply_result
        bits1 bits2 t1 t2).1.next_check_interval ≤ 93600000 ∧
    (periodic_check s enabled auto_update check_avail apply_result
        bits1 bits2 t1 t2).1.last_check_time = t2 := by
  have hb := getRandomInterval_bounds bits2
  unfold periodic_check
  dsimp only
  rw [hfire]
  cases enabled <;> rcases check_avail with _ | b <;> try cases b
  all_goals try cases auto_update
  all_goals simp_all

/-- C3 witness: a state whose 5 ms interval has elapsed at t1 = 10 fires;
after the check (disabled path) the interval is within bounds and the
timestamp equals t2 = 11. -/
theorem claim_C3_witness :
    79200000 ≤ (periodic_check ⟨0, 5⟩ false false none false 0 0 10 11).1.next_check_interval ∧
    (periodic_check ⟨0, 5⟩ false false none false 0 0 10 11).1.next_check_interval ≤ 93600000 ∧
    (periodic_check ⟨0, 5⟩ false false none false 0 0 10 11).1.last_check_time = 11 :=
  claim_C3 ⟨0, 5⟩ false false none false 0 0 10 11 (by decide)

/-- One `pulse` tick preserves the configuration fields, keeps the level
within the bounds and keeps the direction in {1, -1}. -/
lemma pulse_tick_inv (r : LEDRing)
    (hmm : r.pulse_min_brightness ≤ r.pulse_max_brightness)
    (hdir : r.pulse_direction = 1 ∨ r.pulse_direction = -1)
    (hstep : 1 ≤ r.pulse_step)
    (hlo : r.pulse_min_brightness ≤ r.pulse_current)
    (hhi : r.pulse_current ≤ r.pulse_max_brightness) :
    r.pulse.pulse_min_brightness = r.pulse_min_brightness ∧
    r.pulse.pulse_max_brightness = r.pulse_max_brightness ∧
    r.pulse.pulse_step = r.pulse_step ∧
    (r.pulse.pulse_direction = 1 ∨ r.pulse.pulse_direction = -1) ∧
    r.pulse_min_brightness ≤ r.pulse.pulse_current ∧
    r.pulse.pulse_current ≤ r.pulse_max_brightness := by
  unfold LEDRing.pulse
  dsimp only
  rcases hdir with h | h <;> rw [h] <;> split_ifs <;> simp_all <;> omega

/-- Iterating `pulse` keeps the invariant at every tick. -/
lemma pulse_iter_inv (r : LEDRing)
    (hmm : r.pulse_min_brightness ≤ r.pulse_max_brightness)
    (hdir : r.pulse_direction = 1 ∨ r.pulse_direction = -1)
    (hstep : 1 ≤ r.pulse_step)
    (hlo : r.pulse_min_brightness ≤ r.pulse_current)
    (hhi : r.pulse_current ≤ r.pulse_max_brightness) :
    ∀ n : Nat,
      (LEDRing.pulse^[n] r).pulse_min_brightness = r.pulse_min_brightness ∧
      (LEDRing.pulse^[n] r).pulse_max_brightness = r.pulse_max_brightness ∧
      (LEDRing.pulse^[n] r).pulse_step = r.pulse_step ∧
      ((LEDRing.pulse^[n] r).pulse_direction = 1 ∨ (LEDRing.pulse^[n] r).pulse_direction = -1) ∧
      r.pulse_min_brightness ≤ (LEDRing.pulse^[n] r).pulse_current ∧
      (LEDRing.pulse^[n] r).pulse_current ≤ r.pulse_max_brightness := by
  intro n
  induction n with
  | zero => simp_all
  | succ n ih =>
    obtain ⟨e1, e2, e3, hd, l1, l2⟩ := ih
    rw [Function.iterate_succ_apply']
    have := pulse_tick_inv (LEDRing.pulse^[n] r)
      (by rw [e1, e2]; exact hmm) (hd) (by rw [e3]; exact hstep)
      (by rw [e1]; exact l1) (by rw [e2]; exact l2)
    rw [e1, e2, e3] at this
    exact this

/-- Direction-flip characterization of one `pulse` tick. -/
lemma pulse_tick_flip (s : LEDRing)
    (hmm : s.pulse_min_brightness ≤ s.pulse_max_brightness)
    (hdir : s.pulse_direction = 1 ∨ s.pulse_direction = -1)
    (hstep : 1 ≤ s.pulse_step)
    (hlo : s.pulse_min_brightness ≤ s.pulse_current)
    (hhi : s.pulse_current ≤ s.pulse_max_brightness) :
    ((s.pulse.pulse_direction = -1 ∧ s.pulse_direction = 1) ↔
      (s.pulse_direction = 1 ∧
        s.pulse_max_brightness ≤ s.pulse_current + s.pulse_step * s.pulse_direction)) ∧
    ((s.pulse.pulse_direction = 1 ∧ s.pulse_direction = -1) ↔
      (s.pulse_direction = -1 ∧
        s.pulse_current + s.pulse_step * s.pulse_direction ≤ s.pulse_min_brightness)) := by
  unfold LEDRing.pulse
  dsimp only
  rcases hdir with h | h <;> rw [h] <;> split_ifs <;> simp_all <;> omega

/-- C5: in pulse mode, once the state satisfies the pulse invariant (as it
does from initialization on, and in particular from the first boundary hit
on, where the level sits exactly on a bound), every subsequent tick keeps
`pulse_current` within `[pulse_min_brightness, pulse_max_brightness]`
(clamped, not wrapped), and at each tick the direction flips to -1 exactly
when the advanced level reaches the max bound and to +1 exactly when it
reaches the min bound. -/
theorem claim_C5 (r : LEDRing)
    (hmm : r.pulse_min_brightness ≤ r.pulse_max_brightness)
    (hdir : r.pulse_direction = 1 ∨ r.pulse_direction = -1)
    (hstep : 1 ≤ r.pulse_step)
    (hlo : r.pulse_min_brightness ≤ r.pulse_current)
    (hhi : r.pulse_current ≤ r.pulse_max_brightness) :
    (∀ n : Nat,
      r.pulse_min_brightness ≤ (LEDRing.pulse^[n] r).pulse_current ∧
      (LEDRing.pulse^[n] r).pulse_current ≤ r.pulse_max_brightness) ∧
    (∀ n : Nat,
      (((LEDRing.pulse^[n] r).pulse.pulse_direction = -1 ∧
          (LEDRing.pulse^[n] r).pulse_direction = 1) ↔
        ((LEDRing.pulse^[n] r).pulse_direction = 1 ∧
          (LEDRing.pulse^[n] r).pulse_max_brightness ≤
            (LEDRing.pulse^[n] r).pulse_current +
              (LEDRing.pulse^[n] r).pulse_step * (LEDRing.pulse^[n] r).pulse_direction)) ∧
      (((LEDRing.pulse^[n] r).pulse.pulse_direction = 1 ∧
          (LEDRing.pulse^[n] r).pulse_direction = -1) ↔
        ((LEDRing.pulse^[n] r).pulse_direction = -1 ∧
          (LEDRing.pulse^[n] r).pulse_current +
              (LEDRing.pulse^[n] r).pulse_step * (LEDRing.pulse^[n] r).pulse_direction ≤
            (LEDRing.pulse^[n] r).pulse_min_brightness))) := by
  constructor
  · intro n
    have h := pulse_iter_inv r hmm hdir hstep hlo hhi n
    exact ⟨h.2.2.2.2.1, h.2.2.2.2.2⟩
  · intro n
    obtain ⟨e1, e2, e3, hd, l1, l2⟩ := pulse_iter_inv r hmm hdir hstep hlo hhi n
    exact pulse_tick_flip (LEDRing.pulse^[n] r)
      (by rw [e1, e2]; exact hmm) hd (by rw [e3]; exact hstep)
      (by rw [e1]; exact l1) (by rw [e2]; exact l2)

/-- C5 witness: the freshly initialized ring satisfies the pulse invariant
and after three ticks the level is still within bounds. -/
theorem claim_C5_witness :
    ringInit.pulse_min_brightness ≤ (LEDRing.pulse^[3] ringInit).pulse_current ∧
    (LEDRing.pulse^[3] ringInit).pulse_current ≤ ringInit.pulse_max_brightness :=
  (claim_C5 ringInit (by decide) (by decide) (by decide) (by decide) (by decide)).1 3

/-- Python list `>` on integers agrees with the lexicographic order. -/
lemma listGtPy_iff_lex (a : List Int) : ∀ b : List Int,
    listGtPy a b = true ↔ List.Lex (· < ·) b a := by
  induction a with
  | nil =>
    intro b
    simp only [listGtPy, Bool.false_eq_true, false_iff]
    intro h
    cases h
  | cons x xs ih =>
    intro b
    cases b with
    | nil =>
      simp only [listGtPy, true_iff]
      exact List.Lex.nil
    | cons y ys =>
      simp only [listGtPy]
      split_ifs with h1 h2
      · simp only [true_iff]
        exact List.Lex.rel h1
      · simp only [Bool.false_eq_true, false_iff]
        intro h
        cases h with
        | rel h' => omega
        | cons h' => omega
      · have hxy : x = y := by omega
        subst hxy
        rw [ih ys]
        constructor
        · exact fun h => List.Lex.cons h
        · intro h
          cases h with
          | rel h' => omega
          | cons h' => exact h'

/-- C4: `_compare_versions` splits both strings on `'.'`, coerces each
component with `int(...)`, zero-pads the shorter tuple and returns true
exactly when the remote tuple is lexicographically greater; malformed
inputs compare as not newer.  The three example comparisons of the claim
hold as stated. -/
theorem claim_C4 :
    (∀ lv rv : String, _compare_versions lv rv = true ↔
      ∃ lp rp : List Int,
        (pySplit lv ".").mapM pyIntOfString = some lp ∧
        (pySplit rv ".").mapM pyIntOfString = some rp ∧
        List.Lex (· < ·) (lp ++ List.replicate (rp.length - lp.length) 0)
          (rp ++ List.replicate (lp.length - rp.length) 0)) ∧
    _compare_versions "1.2.3" "1.2.10" = true ∧
    _compare_versions "1.10.0" "1.9.9" = false ∧
    _compare_versions "bad" "1.0.0" = false := by
  refine ⟨?_, by decide, by decide, by decide⟩
  intro lv rv
  unfold _compare_versions
  cases h1 : (pySplit lv ".").mapM pyIntOfString with
  | none => simp [h1]
  | some lp =>
    cases h2 : (pySplit rv ".").mapM pyIntOfString with
    | none => simp
    | some rp =>
      dsimp only
      have hlen : (lp ++ List.replicate (rp.length - lp.length) 0).length - rp.length
          = lp.length - rp.length := by
        simp only [List.length_append, List.length_replicate]
        omega
      rw [hlen, listGtPy_iff_lex]
      simp

/-- A successfully parsed AP IP yields exactly four address bytes. -/
lemma ipv4ToBytes_len (ip : String) (l : List Nat) (h : ipv4ToBytes ip = some l) :
    l.length = 4 := by
  unfold ipv4ToBytes at h
  split at h <;> try exact Option.noConfusion h
  split at h <;> try exact Option.noConfusion h
  split at h
  · injection h with h2
    subst h2
    rfl
  · exact Option.noConfusion h

/-- C7: for every well-formed inbound DNS query (at least the 12-byte
header) and a parseable AP IP, the response produced by
`handle_dns_request` echoes the query's transaction id in its first two
bytes, carries answer count 1 in the header's answer-RR field (bytes 6-7),
has an answer record of type A and class IN (the four bytes following the
question section and the 2-byte name pointer), and embeds the configured
AP IP as its final four bytes. -/
theorem claim_C7 (data : List Nat) (ap_ip : String) (ipb dnsResp : List Nat)
    (hlen : 12 ≤ data.length)
    (hip : ipv4ToBytes ap_ip = some ipb)
    (hresp : handle_dns_request data ap_ip = some dnsResp) :
    dnsResp.take 2 = data.take 2 ∧
    (dnsResp.drop 6).take 2 = [0x00, 0x01] ∧
    (dnsResp.drop (data.length + 2)).take 4 = [0x00, 0x01, 0x00, 0x01] ∧
    dnsResp.drop (dnsResp.length - 4) = ipb := by
  have hipb : ipb.length = 4 := ipv4ToBytes_len ap_ip ipb hip
  unfold handle_dns_request at hresp
  rw [hip] at hresp
  injection hresp with h
  subst h
  have hA : (data.take 2).length = 2 := by rw [List.length_take]; omega
  have hB : ((data.drop 4).take 2).length = 2 := by
    rw [List.length_take, List.length_drop]; omega
  have hQ : (data.drop 12).length = data.length - 12 := by rw [List.length_drop]
  refine ⟨?_, ?_, ?_, ?_⟩
  · have hg : data.take 2 ++ [0x81, 0x80] ++ (data.drop 4).take 2 ++ [0x00, 0x01]
        ++ [0x00, 0x00] ++ [0x00, 0x00] ++ data.drop 12 ++ [0xc0, 0x0c] ++ [0x00, 0x01]
        ++ [0x00, 0x01] ++ [0x00, 0x00, 0x00, 0x3c] ++ [0x00, 0x04] ++ ipb
        = data.take 2 ++ ([0x81, 0x80] ++ ((data.drop 4).take 2
        ++ ([0x00, 0x01] ++ ([0x00, 0x00] ++ ([0x00, 0x00] ++ (data.drop 12 ++ ([0xc0, 0x0c]
        ++ ([0x00, 0x01] ++ ([0x00, 0x01] ++ ([0x00, 0x00, 0x00, 0x3c]
        ++ ([0x00, 0x04] ++ ipb))))))))))) := by
      simp [List.append_assoc]
    rw [hg]
    exact List.take_left' hA
  · have hg : data.take 2 ++ [0x81, 0x80] ++ (data.drop 4).take 2 ++ [0x00, 0x01]
        ++ [0x00, 0x00] ++ [0x00, 0x00] ++ data.drop 12 ++ [0xc0, 0x0c] ++ [0x00, 0x01]
        ++ [0x00, 0x01] ++ [0x00, 0x00, 0x00, 0x3c] ++ [0x00, 0x04] ++ ipb
        = (data.take 2 ++ ([0x81, 0x80] ++ (data.drop 4).take 2))
        ++ ([0x00, 0x01] ++ ([0x00, 0x00] ++ ([0x00, 0x00] ++ (data.drop 12 ++ ([0xc0, 0x0c]
        ++ ([0x00, 0x01] ++ ([0x00, 0x01] ++ ([0x00, 0x00, 0x00, 0x3c]
        ++ ([0x00, 0x04] ++ ipb))))))))) := by
      simp [List.append_assoc]
    have hP : (data.take 2 ++ ([0x81, 0x80] ++ (data.drop 4).take 2)).length = 6 := by
      simp [hA, hB]
    rw [hg, List.drop_left' hP]
    rfl
  · have hg : data.take 2 ++ [0x81, 0x80] ++ (data.drop 4).take 2 ++ [0x00, 0x01]
        ++ [0x00, 0x00] ++ [0x00, 0x00] ++ data.drop 12 ++ [0xc0, 0x0c] ++ [0x00, 0x01]
        ++ [0x00, 0x01] ++ [0x00, 0x00, 0x00, 0x3c] ++ [0x00, 0x04] ++ ipb
        = (data.take 2 ++ ([0x81, 0x80] ++ ((data.drop 4).take 2
        ++ ([0x00, 0x01] ++ ([0x00, 0x00] ++ ([0x00, 0x00] ++ (data.drop 12 ++ [0xc0, 0x0c])))))))
        ++ ([0x00, 0x01] ++ ([0x00, 0x01] ++ ([0x00, 0x00, 0x00, 0x3c]
        ++ ([0x00, 0x04] ++ ipb)))) := by
      simp [List.append_assoc]
    have hP : (data.take 2 ++ ([0x81, 0x80] ++ ((data.drop 4).take 2
        ++ ([0x00, 0x01] ++ ([0x00, 0x00] ++ ([0x00, 0x00]
        ++ (data.drop 12 ++ [0xc0, 0x0c]))))))).length = data.length + 2 := by
      simp [hA, hB, hQ]
      omega
    rw [hg, List.drop_left' hP]
    rfl
  · have hg : data.take 2 ++ [0x81, 0x80] ++ (data.drop 4).take 2 ++ [0x00, 0x01]
        ++ [0x00, 0x00] ++ [0x00, 0x00] ++ data.drop 12 ++ [0xc0, 0x0c] ++ [0x00, 0x01]
        ++ [0x00, 0x01] ++ [0x00, 0x00, 0x00, 0x3c] ++ [0x00, 0x04] ++ ipb
        = (data.take 2 ++ ([0x81, 0x80] ++ ((data.drop 4).take 2
        ++ ([0x00, 0x01] ++ ([0x00, 0x00] ++ ([0x00, 0x00] ++ (data.drop 12 ++ ([0xc0, 0x0c]
        ++ ([0x00, 0x01] ++ ([0x00, 0x01] ++ ([0x00, 0x00, 0x00, 0x3c]
        ++ [0x00, 0x04])))))))))))
        ++ ipb := by
      simp [List.append_assoc]
    have hP : (data.take 2 ++ ([0x81, 0x80] ++ ((data.drop 4).take 2
        ++ ([0x00, 0x01] ++ ([0x00, 0x00] ++ ([0x00, 0x00] ++ (data.drop 12 ++ ([0xc0, 0x0c]
        ++ ([0x00, 0x01] ++ ([0x00, 0x01] ++ ([0x00, 0x00, 0x00, 0x3c]
        ++ [0x00, 0x04]))))))))))).length = data.length + 12 := by
      simp [hA, hB, hQ]
      omega
    have hlen2 : (data.take 2 ++ [0x81, 0x80] ++ (data.drop 4).take 2 ++ [0x00, 0x01]
        ++ [0x00, 0x00] ++ [0x00, 0x00] ++ data.drop 12 ++ [0xc0, 0x0c] ++ [0x00, 0x01]
        ++ [0x00, 0x01] ++ [0x00, 0x00, 0x00, 0x3c] ++ [0x00, 0x04] ++ ipb).length - 4
        = data.length + 12 := by
      rw [hg, List.length_append, hP, hipb]
      omega
    rw [hlen2, hg, ← hP, List.drop_left]

/-- C7 witness: a 12-byte query with transaction id 0xABCD against AP IP
10.0.0.1 produces the expected concrete response. -/
theorem claim_C7_witness :
    ([0xab, 0xcd, 1, 0, 0, 1, 0, 0, 0, 0, 0, 0] : List Nat).take 2 = [0xab, 0xcd] ∧
    (((handle_dns_request [0xab, 0xcd, 1, 0, 0, 1, 0, 0, 0, 0, 0, 0] "10.0.0.1").getD []).drop 6).take 2
      = [0x00, 0x01] :=
  ⟨by decide,
    by
      have h := claim_C7 [0xab, 0xcd, 1, 0, 0, 1, 0, 0, 0, 0, 0, 0] "10.0.0.1" [10, 0, 0, 1]
        ([0xab, 0xcd, 0x81, 0x80, 0, 1, 0, 1, 0, 0, 0, 0, 0xc0, 0x0c, 0, 1, 0, 1,
          0, 0, 0, 0x3c, 0, 4, 10, 0, 0, 1])
        (by decide) (by decide) (by decide)
      have h2 : (handle_dns_request [0xab, 0xcd, 1, 0, 0, 1, 0, 0, 0, 0, 0, 0] "10.0.0.1").getD []
          = [0xab, 0xcd, 0x81, 0x80, 0, 1, 0, 1, 0, 0, 0, 0, 0xc0, 0x0c, 0, 1, 0, 1,
             0, 0, 0, 0x3c, 0, 4, 10, 0, 0, 1] := by decide
      rw [h2]
      exact h.2.1⟩

/-- C10: for every `POST /configure` request whose form body lacks the
`ssid` or the `password` field (including requests without a body at all),
`handle_web_request` persists none of the three configuration files (WiFi,
MQTT, OTA) and returns `False`, so the "configuration received" restart
signal is never raised. -/
theorem claim_C10 (request : String)
    (hpost : pyContains request "POST /configure" = true)
    (hmiss : ∀ fp body rest, pySplit request "\r\n\r\n" = fp :: body :: rest →
      fsGet (parse_post_data body) "ssid" = none ∨
      fsGet (parse_post_data body) "password" = none) :
    handle_web_request request
      = ({ wifi_saved := none, mqtt_saved := none, ota_saved := none }, false) := by
  unfold handle_web_request
  dsimp only
  rw [if_pos hpost]
  split
  · next fp body rest heq =>
    rcases hmiss fp body rest heq with hm | hm
    · rw [hm]
    · cases hs : fsGet (parse_post_data body) "ssid" with
      | none => rfl
      | some v => rw [hm]
  · rfl

/-- C10 witness: a configure POST carrying only an ssid (no password)
saves nothing and returns False. -/
theorem claim_C10_witness :
    handle_web_request "POST /configure HTTP/1.1\r\n\r\nssid=home"
      = ({ wifi_saved := none, mqtt_saved := none, ota_saved := none }, false) :=
  claim_C10 "POST /configure HTTP/1.1\r\n\r\nssid=home" (by decide)
    (by
      intro fp body rest hsplit
      have hs : pySplit "POST /configure HTTP/1.1\r\n\r\nssid=home" "\r\n\r\n"
          = ["POST /configure HTTP/1.1", "ssid=home"] := by decide
      rw [hs] at hsplit
      injection hsplit with h1 hsplit2
      injection hsplit2 with h2 hsplit3
      subst h2
      right
      decide)

/-- Looking up after a write. -/
lemma fsGet_fsWrite (fs : List (String × String)) (k v n : String) :
    fsGet (fsWrite fs k v) n = if k = n then some v else fsGet fs n := by
  induction fs with
  | nil => simp [fsWrite, fsGet]
  | cons p rest ih =>
    obtain ⟨k', v'⟩ := p
    by_cases h1 : k' = k <;> by_cases h2 : k = n <;> by_cases h3 : k' = n <;>
      simp_all [fsWrite, fsGet]

/-- Looking up after a removal. -/
lemma fsGet_fsRemove (fs : List (String × String)) (k n : String) :
    fsGet (fsRemove fs k) n = if k = n then none else fsGet fs n := by
  induction fs with
  | nil => simp [fsRemove, fsGet]
  | cons p rest ih =>
    obtain ⟨k', v'⟩ := p
    by_cases h1 : k' = k <;> by_cases h2 : k = n <;> by_cases h3 : k' = n <;>
      simp_all [fsRemove, fsGet]

/-- No string equals itself with `".tmp"` appended. -/
lemma ne_append_tmp (f : String) : f ≠ f ++ ".tmp" := by
  intro h
  have hl := congrArg String.length h
  rw [String.length_append] at hl
  have h4 : ".tmp".length = 4 := rfl
  omega

/-- A list is a prefix of itself followed by anything. -/
lemma isPrefixL_append_self (l : List Char) : ∀ r : List Char, isPrefixL l (l ++ r) = true := by
  induction l with
  | nil => intro r; rfl
  | cons c cs ih => intro r; simp [isPrefixL, ih]

/-- Appending `".tmp"` produces a string that ends with `".tmp"`. -/
lemma endsWith_append_tmp (g : String) : pyEndsWith (g ++ ".tmp") ".tmp" = true := by
  unfold pyEndsWith
  rw [show (g ++ ".tmp").toList = g.toList ++ ".tmp".toList from String.data_append g ".tmp"]
  rw [List.reverse_append]
  exact isPrefixL_append_self _ _

/-- A name that does not end with `".tmp"` is not any `g ++ ".tmp"`. -/
lemma ne_tmp_of_not_endsWith (m : String) (h : pyEndsWith m ".tmp" = false) :
    ∀ g : String, m ≠ g ++ ".tmp" := by
  intro g he
  rw [he, endsWith_append_tmp] at h
  exact Bool.noConfusion h

/-- The success flag of `_download_file` is exactly "the HTTP request
succeeded". -/
lemma download_fst (resp : String → Option String) (url f : String)
    (fs : List (String × String)) :
    (_download_file resp url f fs).1 = (resp url).isSome := by
  unfold _download_file
  cases resp url <;> rfl

/-- Effect of a successful `_download_file` on the file system: the target
gets the downloaded body, the temp file is gone, everything else is
untouched. -/
lemma download_get_some (resp : String → Option String) (url f text : String)
    (fs : List (String × String)) (m : String) (hresp : resp url = some text) :
    fsGet ((_download_file resp url f fs).2) m
      = if f = m then some text else if f ++ ".tmp" = m then none else fsGet fs m := by
  unfold _download_file
  rw [hresp]
  dsimp only
  have hne : f ≠ f ++ ".tmp" := ne_append_tmp f
  have hsc : fsGet (fsRemove (fsWrite fs (f ++ ".tmp") text) f) (f ++ ".tmp") = some text := by
    rw [fsGet_fsRemove, if_neg hne, fsGet_fsWrite, if_pos rfl]
  unfold fsRename
  rw [hsc]
  rw [fsGet_fsWrite, fsGet_fsRemove, fsGet_fsRemove, fsGet_fsWrite]
  split_ifs <;> simp_all

/-- Effect of a failed `_download_file`: only the temp file is cleaned up. -/
lemma download_get_none (resp : String → Option String) (url f : String)
    (fs : List (String × String)) (m : String) (hresp : resp url = none) :
    fsGet ((_download_file resp url f fs).2) m
      = if f ++ ".tmp" = m then none else fsGet fs m := by
  unfold _download_file
  rw [hresp]
  dsimp only
  rw [fsGet_fsRemove]

/-- The download loop never touches the version record or the reboot flag. -/
lemma downloadAll_meta (resp : String → Option String) (su : String) :
    ∀ (fs : List String) (d : DeviceState),
      (downloadAll resp su fs d).2.2.version_record = d.version_record ∧
      (downloadAll resp su fs d).2.2.rebooted = d.rebooted := by
  intro fs
  induction fs with
  | nil => intro d; exact ⟨rfl, rfl⟩
  | cons f rest ih =>
    intro d
    unfold downloadAll
    by_cases hf : f = ""
    · rw [if_pos hf]
      exact ih d
    · rw [if_neg hf]
      dsimp only
      by_cases hdl : (_download_file resp (su ++ "/" ++ f) f d.files).1 = true
      · rw [if_pos hdl]
        exact ih _
      · rw [if_neg hdl]
        exact ⟨rfl, rfl⟩

/-- Keys not in the download list (and not a temp name) are untouched by
the whole download loop, whether it completes or aborts. -/
lemma downloadAll_get_other (resp : String → Option String) (su : String) :
    ∀ (fs : List String) (d : DeviceState) (m : String),
      m ∉ fs → pyEndsWith m ".tmp" = false →
      fsGet ((downloadAll resp su fs d).2.2).files m = fsGet d.files m := by
  intro fs
  induction fs with
  | nil => intro d m _ _; rfl
  | cons f rest ih =>
    intro d m hm hnt
    have hmf : f ≠ m := fun e => hm (e ▸ List.mem_cons_self f rest)
    have hmr : m ∉ rest := fun e => hm (List.mem_cons_of_mem f e)
    have hmtmp : f ++ ".tmp" ≠ m := fun e => ne_tmp_of_not_endsWith m hnt f e.symm
    unfold downloadAll
    by_cases hf : f = ""
    · rw [if_pos hf]
      exact ih d m hmr hnt
    · rw [if_neg hf]
      dsimp only
      cases hr : resp (su ++ "/" ++ f) with
      | some text =>
        have h1 : (_download_file resp (su ++ "/" ++ f) f d.files).1 = true := by
          rw [download_fst, hr]
          rfl
        rw [if_pos h1]
        dsimp only
        rw [ih _ m hmr hnt]
        dsimp only
        rw [download_get_some resp _ f text d.files m hr, if_neg hmf, if_neg hmtmp]
      | none =>
        have h1 : ¬ (_download_file resp (su ++ "/" ++ f) f d.files).1 = true := by
          rw [download_fst, hr]
          simp
        rw [if_neg h1]
        dsimp only
        rw [download_get_none resp _ f d.files m hr, if_neg hmtmp]

/-- When every listed file has a non-empty name and its download succeeds,
the loop reports success and downloads exactly the listed files. -/
lemma downloadAll_success (resp : String → Option String) (su : String) :
    ∀ (fs : List String) (d : DeviceState),
      (∀ f ∈ fs, f ≠ "" ∧ (resp (su ++ "/" ++ f)).isSome = true) →
      (downloadAll resp su fs d).1 = true ∧ (downloadAll resp su fs d).2.1 = fs := by
  intro fs
  induction fs with
  | nil => intro d _; exact ⟨rfl, rfl⟩
  | cons f rest ih =>
    intro d h
    obtain ⟨hf, hok⟩ := h f (List.mem_cons_self f rest)
    unfold downloadAll
    rw [if_neg hf]
    dsimp only
    have h1 : (_download_file resp (su ++ "/" ++ f) f d.files).1 = true := by
      rw [download_fst, hok]
    rw [if_pos h1]
    obtain ⟨ih1, ih2⟩ := ih _ (fun g hg => h g (List.mem_cons_of_mem f hg))
    exact ⟨ih1, by rw [ih2]⟩

/-- When the whole list downloads successfully, each listed file ends up
holding the body served for its URL. -/
lemma downloadAll_get_in (resp : String → Option String) (su : String) :
    ∀ (fs : List String) (d : DeviceState),
      fs.Nodup →
      (∀ f ∈ fs, f ≠ "" ∧ pyEndsWith f ".tmp" = false ∧ (resp (su ++ "/" ++ f)).isSome = true) →
      ∀ m ∈ fs, fsGet ((downloadAll resp su fs d).2.2).files m = resp (su ++ "/" ++ m) := by
  intro fs
  induction fs with
  | nil => intro d _ _ m hm; exact absurd hm (List.not_mem_nil m)
  | cons f rest ih =>
    intro d hnd h m hm
    obtain ⟨hf, hft, hok⟩ := h f (List.mem_cons_self f rest)
    obtain ⟨hfr, hndr⟩ := List.nodup_cons.mp hnd
    cases hr : resp (su ++ "/" ++ f) with
    | none => rw [hr] at hok; exact Bool.noConfusion hok
    | some text =>
      unfold downloadAll
      rw [if_neg hf]
      dsimp only
      have h1 : (_download_file resp (su ++ "/" ++ f) f d.files).1 = true := by
        rw [download_fst, hr]
        rfl
      rw [if_pos h1]
      dsimp only
      rcases List.mem_cons.mp hm with he | hmr
      · subst he
        rw [downloadAll_get_other resp su rest _ m hfr hft]
        dsimp only
        rw [download_get_some resp _ m text d.files m hr, if_pos rfl, hr]
      · exact ih _ hndr (fun g hg => h g (List.mem_cons_of_mem f hg)) m hmr

/-- When the first failing download is `bad`, the loop aborts with
`success = False`, and every file before `bad` keeps its freshly
downloaded content. -/
lemma downloadAll_fail (resp : String → Option String) (su : String) :
    ∀ (pre : List String) (bad : String) (post : List String) (d : DeviceState),
      (∀ f ∈ pre, f ≠ "" ∧ pyEndsWith f ".tmp" = false ∧ (resp (su ++ "/" ++ f)).isSome = true) →
      bad ≠ "" → resp (su ++ "/" ++ bad) = none →
      (pre ++ bad :: post).Nodup →
      (downloadAll resp su (pre ++ bad :: post) d).1 = false ∧
      (∀ m ∈ pre, fsGet ((downloadAll resp su (pre ++ bad :: post) d).2.2).files m
        = resp (su ++ "/" ++ m)) := by
  intro pre
  induction pre with
  | nil =>
    intro bad post d _ hbad hfail _
    rw [List.nil_append]
    constructor
    · unfold downloadAll
      rw [if_neg hbad]
      dsimp only
      have h1 : ¬ (_download_file resp (su ++ "/" ++ bad) bad d.files).1 = true := by
        rw [download_fst, hfail]
        simp
      rw [if_neg h1]
    · intro m hm
      exact absurd hm (List.not_mem_nil m)
  | cons f pre' ih =>
    intro bad post d h hbad hfail hnd
    obtain ⟨hf, hft, hok⟩ := h f (List.mem_cons_self f pre')
    rw [List.cons_append] at hnd ⊢
    obtain ⟨hfr, hndr⟩ := List.nodup_cons.mp hnd
    cases hr : resp (su ++ "/" ++ f) with
    | none => rw [hr] at hok; exact Bool.noConfusion hok
    | some text =>
      have h1 : (_download_file resp (su ++ "/" ++ f) f d.files).1 = true := by
        rw [download_fst, hr]
        rfl
      simp only [downloadAll]
      rw [if_neg hf]
      rw [if_pos h1]
      obtain ⟨ih1, ih2⟩ := ih bad post
        { d with files := (_download_file resp (su ++ "/" ++ f) f d.files).2 }
        (fun g hg => h g (List.mem_cons_of_mem f hg)) hbad hfail hndr
      refine ⟨ih1, ?_⟩
      intro m hm
      rcases List.mem_cons.mp hm with he | hmr
      · subst he
        have hmnot : m ∉ pre' ++ bad :: post := hfr
        rw [downloadAll_get_other resp su _ _ m hmnot hft]
        dsimp only
        rw [download_get_some resp _ m text d.files m hr, if_pos rfl, hr]
      · exact ih2 m hmr

/-- Unfolding of `apply_update` on an enabled config with an available, non-empty file
list reduces to the download loop plus the persist/reboot step. -/
lemma apply_update_eq (config : OtaConfig) (ui : UpdateInfo)
    (resp : String → Option String) (now : Int) (d : DeviceState)
    (hen : config.enabled = true) (hav : ui.available = true)
    (hne : ui.files ≠ []) :
    apply_update config (some ui) resp now d
      = (if (downloadAll resp (pyRstripChar config.server_url '/') ui.files d).1 = true ∧
            (downloadAll resp (pyRstripChar config.server_url '/') ui.files d).2.1 ≠ [] then
          ((downloadAll resp (pyRstripChar config.server_url '/') ui.files d).1,
            { (downloadAll resp (pyRstripChar config.server_url '/') ui.files d).2.2 with
                version_record := some
                  { version := ui.new_version,
                    files := (downloadAll resp (pyRstripChar config.server_url '/') ui.files d).2.1,
                    updated_at := now },
                rebooted := true })
        else
          ((downloadAll resp (pyRstripChar config.server_url '/') ui.files d).1,
            (downloadAll resp (pyRstripChar config.server_url '/') ui.files d).2.2)) := by
  unfold apply_update
  rw [hen]
  rw [if_neg (by simp)]
  dsimp only
  rw [hav]
  rw [if_neg (by simp)]
  rw [if_neg hne]
  unfold _save_local_version
  rfl

/-- C6: `apply_update` downloads each listed file (to a temp name, then
remove-then-rename, per `_download_file`); on the first failed download it
aborts, leaving the previously replaced files holding their freshly
downloaded contents, keeping the old version record, not rebooting, and
returning failure; when every listed file downloads it persists the new
version record (listing exactly the downloaded files) and reaches the
reboot.  Hypotheses: the manifest lists distinct, non-empty names that do
not themselves end in `".tmp"`. -/
theorem claim_C6 (config : OtaConfig) (ui : UpdateInfo) (resp : String → Option String)
    (now : Int) (d : DeviceState)
    (hen : config.enabled = true) (hav : ui.available = true)
    (hnodup : ui.files.Nodup)
    (hnames : ∀ f ∈ ui.files, f ≠ "" ∧ pyEndsWith f ".tmp" = false) :
    ((∀ f ∈ ui.files, (resp (pyRstripChar config.server_url '/' ++ "/" ++ f)).isSome = true) →
      ui.files ≠ [] →
      (apply_update config (some ui) resp now d).1 = true ∧
      (apply_update config (some ui) resp now d).2.version_record
        = some { version := ui.new_version, files := ui.files, updated_at := now } ∧
      (apply_update config (some ui) resp now d).2.rebooted = true) ∧
    (∀ pre bad post, ui.files = pre ++ bad :: post →
      (∀ f ∈ pre, (resp (pyRstripChar config.server_url '/' ++ "/" ++ f)).isSome = true) →
      resp (pyRstripChar config.server_url '/' ++ "/" ++ bad) = none →
      (apply_update config (some ui) resp now d).1 = false ∧
      (apply_update config (some ui) resp now d).2.version_record = d.version_record ∧
      (apply_update config (some ui) resp now d).2.rebooted = d.rebooted ∧
      (∀ m ∈ pre, fsGet (apply_update config (some ui) resp now d).2.files m
        = resp (pyRstripChar config.server_url '/' ++ "/" ++ m))) := by
  constructor
  · intro hok hne
    obtain ⟨h1, h2⟩ := downloadAll_success resp (pyRstripChar config.server_url '/') ui.files d
      (fun f hf => ⟨(hnames f hf).1, hok f hf⟩)
    rw [apply_update_eq config ui resp now d hen hav hne]
    rw [if_pos ⟨h1, by rw [h2]; exact hne⟩]
    exact ⟨h1, by rw [h2], rfl⟩
  · intro pre bad post heq hpreok hbadfail
    have hne : ui.files ≠ [] := by
      rw [heq]
      exact List.append_ne_nil_of_right_ne_nil pre (List.cons_ne_nil bad post)
    have hbadname : bad ≠ "" :=
      (hnames bad (by rw [heq]; exact List.mem_append_right pre (List.mem_cons_self bad post))).1
    obtain ⟨hf1, hf2⟩ := downloadAll_fail resp (pyRstripChar config.server_url '/') pre bad post d
      (fun f hf => ⟨(hnames f (by rw [heq]; exact List.mem_append_left _ hf)).1,
        (hnames f (by rw [heq]; exact List.mem_append_left _ hf)).2, hpreok f hf⟩)
      hbadname hbadfail (heq ▸ hnodup)
    have hmeta := downloadAll_meta resp (pyRstripChar config.server_url '/')
      (pre ++ bad :: post) d
    rw [apply_update_eq config ui resp now d hen hav hne]
    rw [heq]
    rw [if_neg (by rw [hf1]; simp)]
    exact ⟨hf1, hmeta.1, hmeta.2, hf2⟩

/-- C6 witness: a two-file update where the second download fails aborts
with the first file replaced, no version record persisted and no reboot;
the hypotheses of the theorem hold for this concrete manifest. -/
theorem claim_C6_witness :
    (apply_update { enabled := true, server_url := "http://s" }
        (some { available := true, new_version := "1.1.0", files := ["main.py", "led_ring.py"] })
        (fun u => if u = "http://s/main.py" then some "new code" else none)
        5 { files := [], version_record := none, rebooted := false }).1 = false ∧
    (apply_update { enabled := true, server_url := "http://s" }
        (some { available := true, new_version := "1.1.0", files := ["main.py", "led_ring.py"] })
        (fun u => if u = "http://s/main.py" then some "new code" else none)
        5 { files := [], version_record := none, rebooted := false }).2.version_record = none ∧
    (apply_update { enabled := true, server_url := "http://s" }
        (some { available := true, new_version := "1.1.0", files := ["main.py", "led_ring.py"] })
        (fun u => if u = "http://s/main.py" then some "new code" else none)
        5 { files := [], version_record := none, rebooted := false }).2.rebooted = false := by
  have h := (claim_C6 { enabled := true, server_url := "http://s" }
    { available := true, new_version := "1.1.0", files := ["main.py", "led_ring.py"] }
    (fun u => if u = "http://s/main.py" then some "new code" else none)
    5 { files := [], version_record := none, rebooted := false }
    rfl rfl (by decide) (by decide)).2 ["main.py"] "led_ring.py" [] rfl
    (by decide) (by decide)
  exact ⟨h.1, h.2.1, h.2.2.1⟩
